import Mathlib

/-!
Verification of the Polaris session-management layer.

This file gives a shallow embedding, in Lean 4, of the state-management
core of the Polaris wallet client (TypeScript), and proves properties of
that embedding.  Each definition mirrors one function of the source:

* `formatBalance`         — src/cli/repl.ts and src/cli/commands/wallet.ts
* `deriveEncryptionKey`   — src/utils/crypto.ts
* `readWalletData`, `addWallet`, `removeWallet`, `getWalletById`
                          — src/utils/storage.ts (class Storage)
* `defaultUTXOMerkletreeScanCallback`, `defaultTXIDMerkletreeScanCallback`,
  `isUTXOScanComplete`    — src/core/engine.ts (scan-state tracking)
* `loadNetwork`, `unloadNetwork`, `switchNetwork`
                          — src/network/provider-manager.ts (ProviderManager)
* `parseInput`, `findCommand`, `replCommands`
                          — src/cli/repl.ts (command dispatch)
* `walletFindIteration`   — the `wallet find` probing loop of src/cli/repl.ts
                            together with WalletManager.createWallet and
                            WalletManager.deleteWallet (wallet-manager).

External collaborators (the RAILGUN engine, the file system, Node's
`crypto`) are modelled as explicit outcome parameters: an engine call that
can reject is represented by a `Bool`/`Option` outcome supplied as input,
and the state transition of the TypeScript code is reproduced for each
outcome exactly as the control flow of the source dictates.

JavaScript-specific behaviour is modelled explicitly: falsiness of the
empty string (`s || fallback`), `Array.prototype.slice`, `padStart`, and
`String.prototype.split` on whitespace.
-/

/-! Section: JavaScript string helpers -/

/-- Model of JavaScript `String.prototype.padStart(n, c)`: pad on the left
with `c` up to length `n`; a string already at least `n` long is returned
unchanged. -/
def jsPadStart (s : String) (n : Nat) (c : Char) : String :=
  String.mk (List.replicate (n - s.length) c ++ s.data)

/-- Model of JavaScript `String.prototype.slice(0, n)`: the first `n`
characters of the string. -/
def jsSliceTo (s : String) (n : Nat) : String :=
  String.mk (s.data.take n)

/-- Model of the JavaScript idiom `s || fallback` applied to a value of
type `string | undefined`: `undefined` and the empty string (both falsy)
select the fallback. -/
def jsOrElseString (s : Option String) (fallback : String) : String :=
  match s with
  | none => fallback
  | some str => if str = "" then fallback else str

/-! Section: formatBalance (src/cli/repl.ts lines 880-886, identical copy in
src/cli/commands/wallet.ts lines 619-626) -/

/-- Bit length of a natural number (0 for 0), by structural recursion on
a fuel argument so that it evaluates by reduction. -/
def bitLenAux : Nat → Nat → Nat
  | 0, _ => 0
  | fuel + 1, n => if n = 0 then 0 else bitLenAux fuel (n / 2) + 1

/-- Bit length of a natural number: 0 for 0, and `k` with
`2^(k-1) ≤ n < 2^k` otherwise. -/
def bitLen (n : Nat) : Nat := bitLenAux n n

/-- Rounding of a positive integer to 53 significant bits with ties to
even — the value of the IEEE-754 double nearest to the integer.  An
integer of at most 53 bits is exact; otherwise the excess low bits are
rounded off half-to-even. -/
def roundToDouble53 (v : Nat) : Nat :=
  let k := bitLen v - 53
  if k = 0 then v
  else
    let p := 2 ^ k
    let q := v / p
    let r := v % p
    let half := 2 ^ (k - 1)
    let q2 :=
      if r < half then q
      else if half < r then q + 1
      else if q % 2 = 0 then q else q + 1
    q2 * p

/-- Model of the JavaScript expression `BigInt(10 ** decimals)`:
`10 ** decimals` is double-precision exponentiation, whose value is the
double nearest to the exact power (engines produce the correctly rounded
`1e<decimals>` here; e.g. `10 ** 23` is `99999999999999991611392`, not
`10^23`), and `BigInt` of that double recovers its exact integer value —
or throws a RangeError (`none`) once the power overflows to Infinity,
from `decimals = 309` on.  The finiteness test `r < 2^1024` is phrased as
`bitLen r ≤ 1024`, an equivalent form on positive integers.  The double
is exact, equal to `10^decimals`, for every `decimals ≤ 22` (there
`5^decimals < 2^53`). -/
def jsPow10 (n : Nat) : Option Nat :=
  let r := roundToDouble53 (10 ^ n)
  if bitLen r ≤ 1024 then some r else none

/-- Embedding of `formatBalance(balance, decimals)`: integer division of
the balance by the divisor `BigInt(10 ** decimals)` — the float-rounded
power of ten, see `jsPow10` — then the remainder zero-padded via
`padStart(decimals, '0')` and truncated via `slice(0, 6)`.  Balances are
`bigint` in the source; non-negative values are modelled as `Nat`.  The
result is `none` when the divisor construction throws (decimals ≥ 309). -/
def formatBalance (balance : Nat) (decimals : Nat) : Option String :=
  match jsPow10 decimals with
  | none => none
  | some divisor =>
    let integerPart := balance / divisor
    let fractionalPart := balance % divisor
    let fractionalStr := jsSliceTo (jsPadStart (toString fractionalPart) decimals '0') 6
    some (toString integerPart ++ "." ++ fractionalStr)

/-! Section: deriveEncryptionKey (src/utils/crypto.ts lines 6-10) -/

/-- Environment supplying the two external `crypto` primitives used by
`deriveEncryptionKey`: `pbkdf2Sha256Hex pw salt iters keylen` models
`pbkdf2Sync(pw, salt, iters, keylen, 'sha256').toString('hex')`, and
`randomHex16` models the value `randomBytes(16).toString('hex')` produced
for this call. -/
structure CryptoEnv where
  pbkdf2Sha256Hex : String → String → Nat → Nat → String
  randomHex16 : String

/-- Embedding of `deriveEncryptionKey(password, salt?)`: the used salt is
`salt || randomBytes(16).toString('hex')` (JS falsiness: an absent salt
and the empty-string salt both select a fresh random salt), and the key is
the hex PBKDF2-SHA256 of the password with that salt, 100000 iterations,
32 bytes.  Returns `(key, salt)`. -/
def deriveEncryptionKey (env : CryptoEnv) (password : String)
    (salt : Option String) : String × String :=
  let useSalt := jsOrElseString salt env.randomHex16
  let key := env.pbkdf2Sha256Hex password useSalt 100000 32
  (key, useSalt)

/-! Section: Wallet catalog storage (src/utils/storage.ts) -/

/-- Wallet record persisted in the catalog (type `WalletInfo` of the
source: id, railgunAddress, createdAt, networks). -/
structure WalletInfo where
  id : String
  railgunAddress : String
  createdAt : String
  networks : List String
deriving DecidableEq, Repr

/-- Persisted wallet catalog (type `StoredWalletData` of the source):
`{wallets: WalletRecord[], activeWalletId: string|null}`. -/
structure StoredWalletData where
  wallets : List WalletInfo
  activeWalletId : Option String
deriving DecidableEq, Repr

/-- The catalog `readWalletData` falls back to when the file is missing or
unparsable: `{ wallets: [], activeWalletId: null }`. -/
def emptyWalletData : StoredWalletData :=
  { wallets := [], activeWalletId := none }

/-- The file-system environment seen by one call of
`Storage.readWalletData`: `fileContents` is the result of
`fs.promises.readFile` (`none` when the file is missing or unreadable,
i.e. the read rejects), and `parseJson` is `JSON.parse` (`none` when the
contents are malformed and the parse throws). -/
structure CatalogFsEnv where
  fileContents : Option String
  parseJson : String → Option StoredWalletData

/-- Embedding of `Storage.readWalletData`: try to read and parse the
catalog file; any failure inside the `try` block (missing file or
malformed contents) is caught and replaced by the empty catalog. -/
def readWalletData (env : CatalogFsEnv) : StoredWalletData :=
  match env.fileContents with
  | none => emptyWalletData
  | some data =>
    match env.parseJson data with
    | none => emptyWalletData
    | some parsed => parsed

/-- Embedding of `Storage.readWalletDataSync`: a cached catalog is
returned as-is; otherwise the file is read and parsed with the same
catch-all fallback as `readWalletData`. -/
def readWalletDataSync (cached : Option StoredWalletData)
    (env : CatalogFsEnv) : StoredWalletData :=
  match cached with
  | some d => d
  | none => readWalletData env

/-- Embedding of `Storage.addWallet(wallet)`: if no wallet with the same
id exists the record is appended, and — when `activeWalletId` is falsy
(null or the empty string) — the new wallet becomes active; a duplicate id
leaves the catalog unchanged. -/
def addWallet (d : StoredWalletData) (w : WalletInfo) : StoredWalletData :=
  match d.wallets.find? (fun x => x.id == w.id) with
  | some _ => d
  | none =>
    { wallets := d.wallets ++ [w]
      activeWalletId :=
        match d.activeWalletId with
        | none => some w.id
        | some a => if a = "" then some w.id else some a }

/-- Model of `data.wallets[0]?.id || null`: the id of the first wallet of
the list, with JS falsiness collapsing both a missing first wallet and an
empty-string id to `null`. -/
def jsFirstWalletIdOrNull : List WalletInfo → Option String
  | [] => none
  | w :: _ => if w.id = "" then none else some w.id

/-- Embedding of `Storage.removeWallet(walletId)`: drop every record with
the given id; if the removed id was active, the new active id is
`data.wallets[0]?.id || null` over the remaining records. -/
def removeWallet (d : StoredWalletData) (walletId : String) : StoredWalletData :=
  let remaining := d.wallets.filter (fun w => !(w.id == walletId))
  { wallets := remaining
    activeWalletId :=
      if d.activeWalletId = some walletId then jsFirstWalletIdOrNull remaining
      else d.activeWalletId }

/-- Embedding of `Storage.getWalletById(walletId)`: the first record with
the given id, or null. -/
def getWalletById (d : StoredWalletData) (walletId : String) : Option WalletInfo :=
  d.wallets.find? (fun w => w.id == walletId)

/-- One catalog operation, as exercised by the testable property of §8 of
the specification. -/
inductive CatOp where
  | add (w : WalletInfo)
  | remove (walletId : String)
deriving DecidableEq, Repr

/-- Apply one catalog operation. -/
def applyCatOp (d : StoredWalletData) : CatOp → StoredWalletData
  | .add w => addWallet d w
  | .remove i => removeWallet d i

/-- Run a sequence of catalog operations from a given catalog. -/
def applyCatOps (d : StoredWalletData) : List CatOp → StoredWalletData
  | [] => d
  | op :: ops => applyCatOps (applyCatOp d op) ops

/-- Run a sequence of catalog operations from the empty catalog. -/
def runCatalog (ops : List CatOp) : StoredWalletData :=
  applyCatOps emptyWalletData ops

/-- One step of the specification-side presence fold: an add of id `i`
makes it present, a remove of id `i` makes it absent, and any other
operation leaves presence unchanged. -/
def presentStep (i : String) (b : Bool) : CatOp → Bool
  | .add w => b || (w.id == i)
  | .remove j => if j == i then false else b

/-- Specification-side predicate: wallet id `i` has been added by the
operation sequence and not removed since (later operations override
earlier ones). -/
def presentIds (ops : List CatOp) (i : String) : Bool :=
  ops.foldl (presentStep i) false

/-! Section: Scan-state tracking (src/core/engine.ts lines 31-135 and 243-266)

The engine pushes `MerkletreeScanUpdateEvent`s into the module-level
`scanStates` map through `defaultUTXOMerkletreeScanCallback` and
`defaultTXIDMerkletreeScanCallback`.  The map is modelled as a function
from chain id to an optional `ScanState`; an event is tagged with the
callback (track) it is delivered to. -/

/-- The `MerkletreeScanStatus` enumeration of
`@railgun-community/shared-models`, re-exported by src/core/engine.ts. -/
inductive MerkletreeScanStatus where
  | Started
  | Updated
  | Complete
  | Incomplete
deriving DecidableEq, Repr

/-- Which scan callback an event is delivered to: the UTXO merkletree
callback or the TXID merkletree callback. -/
inductive ScanTrack where
  | utxo
  | txid
deriving DecidableEq, Repr

/-- Per-chain scan state (interface `ScanState` of src/core/engine.ts):
status and progress for each of the two tracks.  The source stores
`progress` as a JS number in `[0,1]`; it is modelled as a rational and is
only ever copied, never computed with. -/
structure ScanState where
  utxoStatus : MerkletreeScanStatus
  utxoProgress : ℚ
  txidStatus : MerkletreeScanStatus
  txidProgress : ℚ
deriving DecidableEq, Repr

/-- One scan-progress event pushed by the engine
(`MerkletreeScanUpdateEvent`, routed to one of the two callbacks). -/
structure ScanUpdate where
  chainId : Nat
  track : ScanTrack
  scanStatus : MerkletreeScanStatus
  progress : ℚ
deriving DecidableEq, Repr

/-- The module-level `scanStates: Map<number, ScanState>`. -/
def ScanStates : Type := Nat → Option ScanState

/-- The empty `scanStates` map (module initial state). -/
def emptyScanStates : ScanStates := fun _ => none

/-- Embedding of `getOrCreateScanState(chainId)`: the existing entry, or a
fresh one with both tracks `Started` at progress 0. -/
def getOrCreateScanState (m : ScanStates) (chainId : Nat) : ScanState :=
  match m chainId with
  | some s => s
  | none =>
    { utxoStatus := .Started, utxoProgress := 0
      txidStatus := .Started, txidProgress := 0 }

/-- The chain's scan state after one callback invocation: get or create
the state, then overwrite the status and progress of the event's track
with the event's values (`state.utxoStatus = data.scanStatus;
state.utxoProgress = data.progress` and the TXID twin). -/
def updatedScanState (m : ScanStates) (e : ScanUpdate) : ScanState :=
  let s := getOrCreateScanState m e.chainId
  match e.track with
  | .utxo => { s with utxoStatus := e.scanStatus, utxoProgress := e.progress }
  | .txid => { s with txidStatus := e.scanStatus, txidProgress := e.progress }

/-- Embedding of the two scan callbacks
(`defaultUTXOMerkletreeScanCallback` and
`defaultTXIDMerkletreeScanCallback`): the event's chain now maps to the
record mutated in place by the callback; every other chain is
untouched. -/
def applyScanEvent (m : ScanStates) (e : ScanUpdate) : ScanStates :=
  fun c => if c = e.chainId then some (updatedScanState m e) else m c

/-- Deliver a sequence of scan events, in order, to the callbacks. -/
def runScanEvents (es : List ScanUpdate) (m : ScanStates) : ScanStates :=
  match es with
  | [] => m
  | e :: rest => runScanEvents rest (applyScanEvent m e)

/-- Embedding of `isUTXOScanComplete(chainId)`: false for an unknown
chain, otherwise whether the UTXO track's status is `Complete`. -/
def isUTXOScanComplete (m : ScanStates) (chainId : Nat) : Bool :=
  match m chainId with
  | none => false
  | some s => s.utxoStatus == .Complete

/-- Embedding of `isScanComplete(chainId)`: false for an unknown chain,
otherwise whether both tracks report `Complete`. -/
def isScanComplete (m : ScanStates) (chainId : Nat) : Bool :=
  match m chainId with
  | none => false
  | some s => s.utxoStatus == .Complete && s.txidStatus == .Complete

/-- Status projection of a `ScanState` for a given track. -/
def trackStatus (s : ScanState) : ScanTrack → MerkletreeScanStatus
  | .utxo => s.utxoStatus
  | .txid => s.txidStatus

/-- Specification-side helper: the status carried by the last event of the
sequence aimed at the given chain and track, if any (later events override
earlier ones). -/
def lastTrackStatus : List ScanUpdate → Nat → ScanTrack → Option MerkletreeScanStatus
  | [], _, _ => none
  | e :: es, c, t =>
    match lastTrackStatus es c t with
    | some st => some st
    | none => if e.chainId = c ∧ e.track = t then some e.scanStatus else none

/-- Whether any event of the sequence is aimed at the given chain. -/
def chainTouched (es : List ScanUpdate) (c : Nat) : Bool :=
  es.any (fun e => e.chainId == c)

/-! Section: Network configuration (src/core/config.ts) -/

/-- Per-network configuration (type `NetworkConfig`): chain id, RPC
endpoint list, explorer URL.  Network names are the string values of the
`NetworkName` enumeration. -/
structure NetworkConfig where
  name : String
  chainId : Nat
  rpcUrls : List String
  explorerUrl : String
deriving DecidableEq, Repr

/-- Embedding of the `NETWORK_CONFIGS` registry: the five supported
networks map to their configuration, every other name to `undefined`. -/
def NETWORK_CONFIGS : String → Option NetworkConfig
  | "Ethereum" => some
    { name := "Ethereum", chainId := 1
      rpcUrls := ["https://eth.llamarpc.com", "https://rpc.ankr.com/eth",
                  "https://ethereum.publicnode.com"]
      explorerUrl := "https://etherscan.io" }
  | "Polygon" => some
    { name := "Polygon", chainId := 137
      rpcUrls := ["https://polygon.llamarpc.com", "https://rpc.ankr.com/polygon",
                  "https://polygon-bor.publicnode.com"]
      explorerUrl := "https://polygonscan.com" }
  | "BNB_Chain" => some
    { name := "BNB_Chain", chainId := 56
      rpcUrls := ["https://bsc.llamarpc.com", "https://rpc.ankr.com/bsc",
                  "https://bsc.publicnode.com"]
      explorerUrl := "https://bscscan.com" }
  | "Arbitrum" => some
    { name := "Arbitrum", chainId := 42161
      rpcUrls := ["https://arbitrum.llamarpc.com", "https://rpc.ankr.com/arbitrum",
                  "https://arbitrum-one.publicnode.com"]
      explorerUrl := "https://arbiscan.io" }
  | "Ethereum_Sepolia" => some
    { name := "Ethereum_Sepolia", chainId := 11155111
      rpcUrls := ["https://rpc.ankr.com/eth_sepolia",
                  "https://ethereum-sepolia.publicnode.com"]
      explorerUrl := "https://sepolia.etherscan.io" }
  | _ => none

/-- One provider entry of a fallback provider configuration. -/
structure ProviderEntry where
  provider : String
  priority : Nat
  weight : Nat
deriving DecidableEq, Repr

/-- Fallback provider configuration handed to `loadProvider`. -/
structure FallbackProviderJsonConfig where
  chainId : Nat
  providers : List ProviderEntry
deriving DecidableEq, Repr

/-- Embedding of `getFallbackProviderConfig(networkName)`: null for an
unsupported network, otherwise the chain id and the RPC URLs with
priorities `index + 1` and weight 1. -/
def getFallbackProviderConfig (networkName : String) :
    Option FallbackProviderJsonConfig :=
  match NETWORK_CONFIGS networkName with
  | none => none
  | some config => some
    { chainId := config.chainId
      providers := config.rpcUrls.enum.map
        (fun p => { provider := p.2, priority := p.1 + 1, weight := 1 }) }

/-! Section: ProviderManager (src/network/provider-manager.ts) -/

/-- Serialized fee response of `loadProvider`
(`LoadProviderResponse.feesSerialized`). -/
structure FeesSerialized where
  shieldFeeV2 : String
  unshieldFeeV2 : String
  shieldFeeV3 : Option String
  unshieldFeeV3 : Option String
deriving DecidableEq, Repr

/-- The dummy fee response returned by `loadNetwork` for an
already-loaded network: every V2 fee is the string "0". -/
def dummyFeesSerialized : FeesSerialized :=
  { shieldFeeV2 := "0", unshieldFeeV2 := "0"
    shieldFeeV3 := none, unshieldFeeV3 := none }

/-- Private state of a `ProviderManager` instance: the set of loaded
networks (a JS `Set`, modelled as an insertion-ordered duplicate-free
list) and the active network (null initially). -/
structure PMState where
  loadedNetworks : List String
  activeNetwork : Option String
deriving DecidableEq, Repr

/-- Initial `ProviderManager` state: no loaded networks, no active
network. -/
def pmInit : PMState :=
  { loadedNetworks := [], activeNetwork := none }

/-- Embedding of `ProviderManager.getActiveNetwork()`. -/
def getActiveNetwork (s : PMState) : Option String :=
  s.activeNetwork

/-- Embedding of `ProviderManager.getLoadedNetworks()`. -/
def getLoadedNetworks (s : PMState) : List String :=
  s.loadedNetworks

/-- Embedding of `ProviderManager.isNetworkLoaded(networkName)`. -/
def isNetworkLoaded (s : PMState) (networkName : String) : Bool :=
  s.loadedNetworks.contains networkName

/-- Embedding of `ProviderManager.loadNetwork(networkName)`.  The
`engineResult` parameter is the outcome of the external
`loadProvider(config, networkName, pollingInterval)` call: `some fees`
when it resolves, `none` when it rejects.  The result is `none` when the
method throws (unsupported network, or rejected provider load; in both
cases the instance state is unchanged, since the source mutates its
fields only after the awaited call), and otherwise the new state, the fee
response returned to the caller, and a flag recording whether
`loadProvider` was invoked at all.  An already-loaded network returns
immediately with the dummy zero fees and no provider construction. -/
def loadNetwork (s : PMState) (networkName : String)
    (engineResult : Option FeesSerialized) :
    Option (PMState × FeesSerialized × Bool) :=
  if s.loadedNetworks.contains networkName then
    some (s, dummyFeesSerialized, false)
  else
    match getFallbackProviderConfig networkName with
    | none => none
    | some _ =>
      match engineResult with
      | none => none
      | some fees =>
        some ({ loadedNetworks := s.loadedNetworks ++ [networkName]
                activeNetwork := some networkName },
              fees, true)

/-- Model of `this.loadedNetworks.values().next().value || null`: the
first member of the set, with JS falsiness collapsing both an empty set
and an empty-string name to `null`. -/
def jsFirstNetworkOrNull : List String → Option String
  | [] => none
  | n :: _ => if n = "" then none else some n

/-- Embedding of `ProviderManager.unloadNetwork(networkName)`.  The
`engineOk` parameter is the outcome of the external
`unloadProvider(networkName)` call.  A network that is not loaded is a
no-op; a rejected unload throws with the state unchanged; otherwise the
network is removed and, if it was active, the new active network is the
first remaining one or null. -/
def unloadNetwork (s : PMState) (networkName : String) (engineOk : Bool) :
    Option PMState :=
  if !(s.loadedNetworks.contains networkName) then
    some s
  else if !engineOk then
    none
  else
    let remaining := s.loadedNetworks.erase networkName
    some { loadedNetworks := remaining
           activeNetwork :=
             if s.activeNetwork = some networkName then
               jsFirstNetworkOrNull remaining
             else s.activeNetwork }

/-- Embedding of `ProviderManager.switchNetwork(networkName)`: load the
network first if it is not loaded (propagating a failure), then pause all
other polling providers, resume the target's, and set it active. -/
def switchNetwork (s : PMState) (networkName : String)
    (engineResult : Option FeesSerialized) : Option PMState :=
  if s.loadedNetworks.contains networkName then
    some { s with activeNetwork := some networkName }
  else
    match loadNetwork s networkName engineResult with
    | none => none
    | some (s', _, _) => some { s' with activeNetwork := some networkName }

/-- One `ProviderManager` operation together with the outcome of its
external engine call. -/
inductive PMOp where
  | load (networkName : String) (engineResult : Option FeesSerialized)
  | unload (networkName : String) (engineOk : Bool)
  | switch (networkName : String) (engineResult : Option FeesSerialized)
deriving DecidableEq, Repr

/-- Apply one `ProviderManager` operation; `none` when it throws. -/
def applyPMOp (s : PMState) : PMOp → Option PMState
  | .load n r => (loadNetwork s n r).map (fun p => p.1)
  | .unload n ok => unloadNetwork s n ok
  | .switch n r => switchNetwork s n r

/-- Run a sequence of `ProviderManager` operations; `some` exactly when
every operation of the sequence succeeds. -/
def runPM (s : PMState) : List PMOp → Option PMState
  | [] => some s
  | op :: ops =>
    match applyPMOp s op with
    | none => none
    | some s' => runPM s' ops

/-! Section: Command dispatch (src/cli/repl.ts lines 888-925 and the registry
built by `createCommands`) -/

/-- Splitting a character list on runs of whitespace, dropping empty
pieces; the accumulator collects the current token in reverse. -/
def splitWsChars : List Char → List Char → List (List Char)
  | [], acc => if acc.isEmpty then [] else [acc.reverse]
  | c :: cs, acc =>
    if c.isWhitespace then
      if acc.isEmpty then splitWsChars cs []
      else acc.reverse :: splitWsChars cs []
    else splitWsChars cs (c :: acc)

/-- Model of `input.trim().split(/\s+/)`: the whitespace-separated tokens
of the input.  For whitespace-only input JS yields `[""]` where this
yields `[]`; the two are observationally equal downstream, since the
source only reads `parts[0] || ''` (giving `""` either way), the length
test `parts.length >= 2` (false either way) and `parts.slice(1)`/
`parts.slice(2)` (empty either way). -/
def jsTokens (s : String) : List String :=
  (splitWsChars s.data []).map String.mk

/-- Result of `parseInput`: a command token and the remaining arguments. -/
structure ParsedInput where
  command : String
  args : List String
deriving DecidableEq, Repr

/-- Embedding of `parseInput(input)`: with at least two tokens the command
is the first two tokens joined by a single space and the arguments are the
rest; otherwise the command is the sole token (or `""`). -/
def parseInput (input : String) : ParsedInput :=
  let parts := jsTokens input
  if 2 ≤ parts.length then
    { command := parts.headD "" ++ " " ++ (parts.drop 1).headD ""
      args := parts.drop 2 }
  else
    { command := parts.headD "", args := parts.drop 1 }

/-- A REPL command as registered by `createCommands`: canonical name
(possibly two words) and aliases.  Handlers, descriptions and usage
strings play no role in resolution. -/
structure ReplCommand where
  name : String
  aliases : List String
deriving DecidableEq, Repr

/-- Whether a command's name or one of its aliases equals the token
(`cmd.name === command || cmd.aliases?.includes(command)`). -/
def matchesToken (tok : String) (c : ReplCommand) : Bool :=
  c.name == tok || c.aliases.contains tok

/-- The command registry built by `createCommands` in src/cli/repl.ts, in
push order: names and aliases only. -/
def replCommands : List ReplCommand :=
  [ { name := "help", aliases := ["h", "?"] },
    { name := "status", aliases := ["st"] },
    { name := "clear", aliases := ["cls"] },
    { name := "exit", aliases := ["quit", "q"] },
    { name := "wallet create", aliases := ["wc"] },
    { name := "wallet import", aliases := ["wi"] },
    { name := "wallet list", aliases := ["wl"] },
    { name := "wallet load", aliases := ["wload"] },
    { name := "wallet use", aliases := ["wu"] },
    { name := "wallet export", aliases := ["we"] },
    { name := "wallet find", aliases := ["wf"] },
    { name := "network list", aliases := ["nl"] },
    { name := "network connect", aliases := ["nc"] },
    { name := "network disconnect", aliases := ["nd"] },
    { name := "network switch", aliases := ["ns"] },
    { name := "sync", aliases := ["sy"] },
    { name := "balance", aliases := ["bal", "b"] },
    { name := "balance refresh", aliases := ["br"] },
    { name := "history", aliases := ["hist"] } ]

/-- Embedding of `findCommand(input, commands)`: falsy parsed command
resolves to nothing; otherwise the parsed (two-word when available)
command token is matched first against every command's name and aliases,
and only on failure is the bare first token matched, with the remaining
tokens as arguments.  Unmatched input resolves to `none` (the resolver is
total: it never throws). -/
def findCommand (input : String) (commands : List ReplCommand) :
    Option (ReplCommand × List String) :=
  let p := parseInput input
  if p.command = "" then none
  else
    match commands.find? (matchesToken p.command) with
    | some cmd => some (cmd, p.args)
    | none =>
      let toks := jsTokens input
      match commands.find? (matchesToken (toks.headD "")) with
      | some cmd => some (cmd, toks.drop 1)
      | none => none

/-! Section: The `wallet find` probing iteration (src/cli/repl.ts lines 485-493,
same loop in src/cli/commands/wallet.ts lines 123-136), built on
`WalletManager.createWallet` and `WalletManager.deleteWallet`
(wallet-manager source, persisted through `Storage`). -/

/-- Outcomes of the external engine calls performed by one probing
iteration: `engineCreateOk` is whether `createRailgunWallet` resolves
inside `createWallet`, `saveSaltOk` whether the salt write after
`storage.addWallet` resolves, `deleteLoadOk` whether the password-proof
`loadWalletByID` inside `deleteWallet` resolves, and `engineDeleteOk`
whether `deleteWalletByID` resolves. -/
structure FindIterOutcome where
  engineCreateOk : Bool
  saveSaltOk : Bool
  deleteLoadOk : Bool
  engineDeleteOk : Bool
deriving DecidableEq, Repr

/-- Embedding of one iteration of the `wallet find` loop, tracking the
persisted catalog.  The iteration body is
`try { const w = await createWallet(...); log; await deleteWallet(w.id, tempPassword) } catch { log }`:

* if `createRailgunWallet` rejects, `createWallet` throws before
  persisting anything and the catch leaves the catalog unchanged;
* otherwise `storage.addWallet` persists the ephemeral record; if the
  subsequent salt write rejects, `createWallet` throws and the catch
  leaves the record in the catalog;
* otherwise `deleteWallet` runs: if its `loadWalletByID` or
  `deleteWalletByID` rejects, the throw is caught before
  `storage.removeWallet` and the record again stays; only when both
  resolve is the record removed. -/
def walletFindIteration (d : StoredWalletData) (w : WalletInfo)
    (o : FindIterOutcome) : StoredWalletData :=
  if !o.engineCreateOk then d
  else
    let d1 := addWallet d w
    if !o.saveSaltOk then d1
    else if o.deleteLoadOk && o.engineDeleteOk then removeWallet d1 w.id
    else d1

/-- The whole probing loop: one iteration per derivation index, each with
its own ephemeral wallet and engine outcomes. -/
def walletFindLoop (d : StoredWalletData) :
    List (WalletInfo × FindIterOutcome) → StoredWalletData
  | [] => d
  | (w, o) :: rest => walletFindLoop (walletFindIteration d w o) rest

/-! Section: Claim C5 — formatBalance formatting -/

/-- Counterexample to claim C5 as stated for every decimals count: the
divisor is `BigInt(10 ** decimals)`, computed in floating point — for
`decimals = 23` it is `99999999999999991611392`, not `10^23`.  At balance
`99999999999999991611392` the program prints "1.000000", while the
claimed formula (integer division by the exact `10^23`, zero-pad,
truncate) yields "0.999999". -/
theorem formatBalance_float_divisor_counterexample :
    formatBalance 99999999999999991611392 23 = some "1.000000" ∧
    toString (99999999999999991611392 / 10 ^ 23) ++ "." ++
        String.mk
          ((List.replicate
              (23 - (toString (99999999999999991611392 % 10 ^ 23)).length) '0' ++
            (toString (99999999999999991611392 % 10 ^ 23)).data).take 6) =
      "0.999999" := by
  refine ⟨by decide, by decide⟩

/-- The float-rounded power of ten agrees with the exact power on every
`decimals ≤ 22`, where `5^decimals < 2^53` keeps the double exact. -/
theorem jsPow10_eq_pow_of_le_22 : ∀ d : Nat, d ≤ 22 → jsPow10 d = some (10 ^ d) := by
  decide

/-- Amended claim C5: `formatBalance` divides by `BigInt(10 ** decimals)`,
whose floating-point power equals the exact `10^decimals` only for
`decimals ≤ 22`; for every non-negative integer balance and every
`decimals ≤ 22` — which covers all token decimals in use (registry
default 18) — the result is the whole-unit part obtained by integer
division of balance by `10^decimals`, then a dot, then the remainder's
decimal digits zero-padded on the left to `decimals` digits and truncated
(the first 6 characters, never rounded).  For larger decimals the divisor
is the nearest double to `10^decimals` instead, and from `decimals = 309`
on the call throws.  In particular
`formatBalance 1234567890123456789 18 = some "1.234567"` (the seventh
fractional digit 8 is dropped, not rounded up) and
`formatBalance 0 6 = some "0.000000"`. -/
theorem formatBalance_div_pad_truncate :
    (∀ balance decimals : Nat, decimals ≤ 22 →
        formatBalance balance decimals =
          some (toString (balance / 10 ^ decimals) ++ "." ++
            String.mk
              ((List.replicate
                  (decimals - (toString (balance % 10 ^ decimals)).length) '0' ++
                (toString (balance % 10 ^ decimals)).data).take 6))) ∧
    formatBalance 1234567890123456789 18 = some "1.234567" ∧
    formatBalance 0 6 = some "0.000000" := by
  refine ⟨?_, by decide, by decide⟩
  intro balance decimals hd
  unfold formatBalance
  rw [jsPow10_eq_pow_of_le_22 decimals hd]
  rfl

/-- Witness for the amended claim C5 at balance 123, decimals 2
(`"1."` followed by the remainder 23 padded to 2 digits). -/
theorem formatBalance_div_pad_truncate_witness :
    (2 ≤ 22) ∧
    formatBalance 123 2 =
      some (toString (123 / 10 ^ 2) ++ "." ++
        String.mk
          ((List.replicate (2 - (toString (123 % 10 ^ 2)).length) '0' ++
            (toString (123 % 10 ^ 2)).data).take 6)) :=
  ⟨by decide, formatBalance_div_pad_truncate.1 123 2 (by decide)⟩

/-! Section: Claim C9 — catalog reads never propagate IOErrors -/

/-- Claim C9: reading the persisted wallet catalog never propagates an
IOError: whenever the catalog file is missing or its contents fail to
parse (`env.fileContents.bind env.parseJson = none`), `readWalletData`
returns the empty catalog `{wallets: [], activeWalletId: null}`, and
`readWalletDataSync` without a cache does the same. -/
theorem readWalletData_missing_or_corrupt_empty (env : CatalogFsEnv)
    (h : env.fileContents.bind env.parseJson = none) :
    readWalletData env = { wallets := [], activeWalletId := none } ∧
    readWalletDataSync none env = { wallets := [], activeWalletId := none } := by
  have hmain : readWalletData env = { wallets := [], activeWalletId := none } := by
    unfold readWalletData
    cases hf : env.fileContents with
    | none => rfl
    | some data =>
      rw [hf] at h
      simp only [Option.some_bind] at h
      simp [h, emptyWalletData]
  exact ⟨hmain, hmain⟩

/-- Witness for claim C9 at a concrete environment whose catalog file
exists but holds malformed contents. -/
theorem readWalletData_missing_or_corrupt_empty_witness :
    (CatalogFsEnv.mk (some "not json") (fun _ => none)).fileContents.bind
        (CatalogFsEnv.mk (some "not json") (fun _ => none)).parseJson = none ∧
    readWalletData (CatalogFsEnv.mk (some "not json") (fun _ => none)) =
      { wallets := [], activeWalletId := none } :=
  ⟨rfl, (readWalletData_missing_or_corrupt_empty
          (CatalogFsEnv.mk (some "not json") (fun _ => none)) rfl).1⟩

/-! Section: Claim C10 — deriveEncryptionKey salt handling -/

/-- Claim C10: `deriveEncryptionKey` treats an empty-string salt exactly
like an absent salt — the call returns the freshly generated random salt,
not the empty string — while for every non-empty salt `s` the returned
salt is `s` itself and the key is the hex PBKDF2-SHA256 of the password
with salt `s`, 100000 iterations and 32 bytes (deterministic: the result
is a function of the password and salt alone). -/
theorem deriveEncryptionKey_salt_handling :
    (∀ (env : CryptoEnv) (password : String),
        deriveEncryptionKey env password (some "") =
          deriveEncryptionKey env password none ∧
        (deriveEncryptionKey env password (some "")).2 = env.randomHex16) ∧
    (∀ (env : CryptoEnv) (password s : String), s ≠ "" →
        deriveEncryptionKey env password (some s) =
          (env.pbkdf2Sha256Hex password s 100000 32, s)) := by
  constructor
  · intro env password
    exact ⟨rfl, rfl⟩
  · intro env password s hs
    simp [deriveEncryptionKey, jsOrElseString, hs]

/-- A concrete crypto environment used to witness claim C10. -/
def cryptoEnvForTest : CryptoEnv :=
  { pbkdf2Sha256Hex := fun password salt iters keylen =>
      password ++ "|" ++ salt ++ "|" ++ toString iters ++ "|" ++ toString keylen
    randomHex16 := "aabbccddeeff00112233445566778899" }

/-- Witness for claim C10 at a concrete non-empty salt. -/
theorem deriveEncryptionKey_salt_handling_witness :
    "somesalt" ≠ "" ∧
    deriveEncryptionKey cryptoEnvForTest "hunter22" (some "somesalt") =
      (cryptoEnvForTest.pbkdf2Sha256Hex "hunter22" "somesalt" 100000 32,
       "somesalt") :=
  ⟨by decide,
   deriveEncryptionKey_salt_handling.2 cryptoEnvForTest "hunter22" "somesalt"
     (by decide)⟩

/-! Section: Claim C3 — loadNetwork is idempotent with dummy fees -/

/-- Claim C3: calling `loadNetwork` for a network already in the connected
set does not invoke the engine's provider construction (the invocation
flag is `false`), leaves the connected set and the active network
unchanged (the state is returned as-is), and returns a fee response whose
`shieldFeeV2` and `unshieldFeeV2` are the string "0" rather than any
cached fee parameters — whatever fee data the engine would have
returned. -/
theorem loadNetwork_already_loaded (s : PMState) (networkName : String)
    (engineResult : Option FeesSerialized)
    (h : isNetworkLoaded s networkName = true) :
    loadNetwork s networkName engineResult =
      some (s, dummyFeesSerialized, false) ∧
    dummyFeesSerialized.shieldFeeV2 = "0" ∧
    dummyFeesSerialized.unshieldFeeV2 = "0" := by
  refine ⟨?_, rfl, rfl⟩
  unfold loadNetwork
  rw [show s.loadedNetworks.contains networkName = true from h]
  simp

/-- Witness for claim C3: reloading the already-connected Ethereum network
while the engine would have reported nonzero cached fees. -/
theorem loadNetwork_already_loaded_witness :
    isNetworkLoaded (PMState.mk ["Ethereum"] (some "Ethereum")) "Ethereum" = true ∧
    loadNetwork (PMState.mk ["Ethereum"] (some "Ethereum")) "Ethereum"
        (some (FeesSerialized.mk "25" "25" none none)) =
      some (PMState.mk ["Ethereum"] (some "Ethereum"), dummyFeesSerialized, false) :=
  ⟨by decide,
   (loadNetwork_already_loaded (PMState.mk ["Ethereum"] (some "Ethereum"))
     "Ethereum" (some (FeesSerialized.mk "25" "25" none none)) (by decide)).1⟩

/-! Section: Claim C6 — the wallet-find probing loop can orphan a record -/

/-- The ephemeral wallet of the failing probe iteration. -/
def probeWallet : WalletInfo :=
  { id := "probe-wallet-0", railgunAddress := "0zk-probe-address"
    createdAt := "2024-01-01T00:00:00Z", networks := [] }

/-- Claim C6 evaluated at its failing input: a single `wallet find`
iteration in which `createWallet` succeeds (the record is persisted) and
the engine's `deleteWalletByID` rejects.  The catch swallows the error
and the ephemeral wallet record remains in the persisted catalog after
the loop — and is even left as the active wallet — contradicting the
guaranteed-cleanup property. -/
theorem walletFind_orphan_on_delete_failure :
    walletFindLoop emptyWalletData
        [(probeWallet,
          FindIterOutcome.mk true true true false)] =
      { wallets := [probeWallet], activeWalletId := some "probe-wallet-0" } := by
  decide

/-! Section: Scan-state characterization lemmas -/

/-- Status of the updated record: the event's status on the event's own
track, the pre-existing (or freshly created) status on the other track. -/
theorem trackStatus_updatedScanState (m : ScanStates) (e : ScanUpdate)
    (t : ScanTrack) :
    trackStatus (updatedScanState m e) t =
      if e.track = t then e.scanStatus
      else trackStatus (getOrCreateScanState m e.chainId) t := by
  cases he : e.track <;> cases t <;>
    simp [updatedScanState, trackStatus, he]

/-- Delivering a sequence of scan events computes, on each track of each
chain, the status of the last event delivered for that track; a chain
touched only on the other track keeps its created-or-previous status, and
an untouched chain keeps its previous entry. -/
theorem runScanEvents_trackStatus (es : List ScanUpdate) (m : ScanStates)
    (c : Nat) (t : ScanTrack) :
    (runScanEvents es m c).map (fun s => trackStatus s t) =
      match lastTrackStatus es c t with
      | some st => some st
      | none =>
        if chainTouched es c then
          some (trackStatus (getOrCreateScanState m c) t)
        else (m c).map (fun s => trackStatus s t) := by
  induction es generalizing m with
  | nil => simp [runScanEvents, lastTrackStatus, chainTouched]
  | cons e es ih =>
    have hstep : runScanEvents (e :: es) m =
        runScanEvents es (applyScanEvent m e) := rfl
    rw [hstep, ih (applyScanEvent m e)]
    by_cases hc : e.chainId = c
    · subst hc
      cases hlast : lastTrackStatus es e.chainId t with
      | some st => simp [lastTrackStatus, hlast]
      | none =>
        by_cases ht : e.track = t
        · simp [lastTrackStatus, hlast, chainTouched, ht,
                applyScanEvent, getOrCreateScanState,
                trackStatus_updatedScanState]
        · simp [lastTrackStatus, hlast, chainTouched, ht,
                applyScanEvent, getOrCreateScanState,
                trackStatus_updatedScanState]
    · have hcb : (e.chainId == c) = false := beq_false_of_ne hc
      have hcond : ¬(e.chainId = c ∧ e.track = t) := fun hand => hc hand.1
      have hmc : applyScanEvent m e c = m c := by
        unfold applyScanEvent
        exact if_neg (fun h => hc h.symm)
      have hgo : getOrCreateScanState (applyScanEvent m e) c =
          getOrCreateScanState m c := by
        unfold getOrCreateScanState
        rw [hmc]
      cases hlast : lastTrackStatus es c t with
      | some st => simp [lastTrackStatus, hlast]
      | none =>
        simp [lastTrackStatus, hlast, chainTouched, hcb, hmc, hgo, hcond]

/-- A last-event status always originates from an event of the sequence
aimed at that chain and track. -/
theorem lastTrackStatus_some_mem {es : List ScanUpdate} {c : Nat}
    {t : ScanTrack} {st : MerkletreeScanStatus}
    (h : lastTrackStatus es c t = some st) :
    ∃ e ∈ es, e.chainId = c ∧ e.track = t ∧ e.scanStatus = st := by
  induction es with
  | nil => simp [lastTrackStatus] at h
  | cons e es ih =>
    unfold lastTrackStatus at h
    cases hl : lastTrackStatus es c t with
    | some st2 =>
      rw [hl] at h
      obtain ⟨e2, he2, h1, h2, h3⟩ := ih (hl.trans h)
      exact ⟨e2, List.mem_cons_of_mem e he2, h1, h2, h3⟩
    | none =>
      rw [hl] at h
      by_cases hcond : e.chainId = c ∧ e.track = t
      · rw [if_pos hcond] at h
        exact ⟨e, List.mem_cons_self e es, hcond.1, hcond.2,
          Option.some.inj h⟩
      · rw [if_neg hcond] at h
        exact absurd h (Option.noConfusion)

/-- A sequence with no event for the chain-track pair has no last
status. -/
theorem lastTrackStatus_eq_none {es : List ScanUpdate} {c : Nat}
    {t : ScanTrack} (h : ∀ e ∈ es, ¬(e.chainId = c ∧ e.track = t)) :
    lastTrackStatus es c t = none := by
  induction es with
  | nil => rfl
  | cons e es ih =>
    unfold lastTrackStatus
    rw [ih (fun e2 he2 => h e2 (List.mem_cons_of_mem e he2))]
    exact if_neg (h e (List.mem_cons_self e es))

/-- Appending event sequences: the second sequence's last status wins. -/
theorem lastTrackStatus_append (l₁ l₂ : List ScanUpdate) (c : Nat)
    (t : ScanTrack) :
    lastTrackStatus (l₁ ++ l₂) c t =
      match lastTrackStatus l₂ c t with
      | some st => some st
      | none => lastTrackStatus l₁ c t := by
  induction l₁ with
  | nil =>
    cases hl : lastTrackStatus l₂ c t <;> simp [lastTrackStatus, hl]
  | cons e l₁ ih =>
    show (match lastTrackStatus (l₁ ++ l₂) c t with
          | some st => some st
          | none =>
            if e.chainId = c ∧ e.track = t then some e.scanStatus else none) = _
    rw [ih]
    cases hl2 : lastTrackStatus l₂ c t with
    | some st => simp [lastTrackStatus]
    | none =>
      cases hl1 : lastTrackStatus l₁ c t with
      | some st => simp [lastTrackStatus, hl1]
      | none => simp [lastTrackStatus, hl1]

/-- Completion test seen through the status projection. -/
theorem isUTXOScanComplete_iff (m : ScanStates) (c : Nat) :
    isUTXOScanComplete m c = true ↔
      (m c).map (fun s => trackStatus s ScanTrack.utxo) =
        some MerkletreeScanStatus.Complete := by
  unfold isUTXOScanComplete
  cases m c with
  | none => simp
  | some s => simp [trackStatus]

/-! Section: Claim C1 — scan status is not latched at Complete -/

/-- Counterexample to claim C1: on chain 1's UTXO track the engine first
delivers a Complete event (observed: the scan is complete) and then an
Incomplete progress event.  The second plain progress event — not any
reset — regresses the track's status away from Complete. -/
theorem scanComplete_regression_counterexample :
    isUTXOScanComplete
        (runScanEvents [ScanUpdate.mk 1 ScanTrack.utxo
          MerkletreeScanStatus.Complete 1] emptyScanStates) 1 = true ∧
    isUTXOScanComplete
        (runScanEvents [ScanUpdate.mk 1 ScanTrack.utxo
            MerkletreeScanStatus.Complete 1,
          ScanUpdate.mk 1 ScanTrack.utxo
            MerkletreeScanStatus.Incomplete 0] emptyScanStates) 1 = false :=
  ⟨rfl, rfl⟩

/-- Amended claim C1: the scan callbacks overwrite a track's status with
each event's status unconditionally, so after any event sequence a
track's status is exactly the status of the last event delivered for that
track (`Started` if the chain's state was created by events for the other
track only, absent if the chain never received an event).  In particular
Complete is not latched: a later non-Complete progress event regresses
the status, no explicit reset being needed (the tracker has no reset
operation at all). -/
theorem scanStatus_is_last_event_status (es : List ScanUpdate) (c : Nat)
    (t : ScanTrack) :
    ((runScanEvents es emptyScanStates) c).map (fun s => trackStatus s t) =
      match lastTrackStatus es c t with
      | some st => some st
      | none =>
        if chainTouched es c then some MerkletreeScanStatus.Started
        else none := by
  rw [runScanEvents_trackStatus]
  cases lastTrackStatus es c t with
  | some st => rfl
  | none =>
    cases chainTouched es c with
    | false => rfl
    | true => cases t <;> rfl

/-! Section: Claim C4 — isUTXOScanComplete behaviour -/

/-- Claim C4: for every chain id, `isUTXOScanComplete` returns false when
no progress event has ever been received for that chain (unknown chain),
and false as long as no Complete event has been delivered on that chain's
UTXO track; after a Complete event on the UTXO track — followed by
arbitrarily many duplicate Complete events on that track (events for
other chains or the TXID track in between are irrelevant) — it returns
true. -/
theorem isUTXOScanComplete_spec (c : Nat) :
    (∀ es : List ScanUpdate, (∀ e ∈ es, e.chainId ≠ c) →
        isUTXOScanComplete (runScanEvents es emptyScanStates) c = false) ∧
    (∀ es : List ScanUpdate,
        (∀ e ∈ es, e.chainId = c → e.track = ScanTrack.utxo →
          e.scanStatus ≠ MerkletreeScanStatus.Complete) →
        isUTXOScanComplete (runScanEvents es emptyScanStates) c = false) ∧
    (∀ (es₁ es₂ : List ScanUpdate) (p : ℚ),
        (∀ e ∈ es₂, e.chainId = c → e.track = ScanTrack.utxo →
          e.scanStatus = MerkletreeScanStatus.Complete) →
        isUTXOScanComplete
          (runScanEvents
            (es₁ ++ ScanUpdate.mk c ScanTrack.utxo
              MerkletreeScanStatus.Complete p :: es₂)
            emptyScanStates) c = true) := by
  refine ⟨?_, ?_, ?_⟩
  · intro es h
    rw [Bool.eq_false_iff]
    intro htrue
    have hmap := (isUTXOScanComplete_iff _ c).mp htrue
    rw [scanStatus_is_last_event_status] at hmap
    have hnone : lastTrackStatus es c ScanTrack.utxo = none :=
      lastTrackStatus_eq_none (fun e he hand => h e he hand.1)
    have htouch : chainTouched es c = false := by
      unfold chainTouched
      rw [List.any_eq_false]
      intro e he
      simp [beq_false_of_ne (h e he)]
    rw [hnone, htouch] at hmap
    exact Option.noConfusion hmap
  · intro es h
    rw [Bool.eq_false_iff]
    intro htrue
    have hmap := (isUTXOScanComplete_iff _ c).mp htrue
    rw [scanStatus_is_last_event_status] at hmap
    cases hl : lastTrackStatus es c ScanTrack.utxo with
    | some st =>
      obtain ⟨e, he, hec, het, hes⟩ := lastTrackStatus_some_mem hl
      rw [hl] at hmap
      exact h e he hec het (hes.trans (Option.some.inj hmap))
    | none =>
      rw [hl] at hmap
      cases htouch : chainTouched es c with
      | false => rw [htouch] at hmap; simp at hmap
      | true => rw [htouch] at hmap; simp at hmap
  · intro es₁ es₂ p h
    rw [isUTXOScanComplete_iff, scanStatus_is_last_event_status,
      lastTrackStatus_append]
    have hcons : lastTrackStatus
        (ScanUpdate.mk c ScanTrack.utxo MerkletreeScanStatus.Complete p :: es₂)
        c ScanTrack.utxo = some MerkletreeScanStatus.Complete := by
      unfold lastTrackStatus
      cases hl2 : lastTrackStatus es₂ c ScanTrack.utxo with
      | some st =>
        obtain ⟨e, he, hec, het, hes⟩ := lastTrackStatus_some_mem hl2
        rw [← h e he hec het, hes]
      | none => simp
    rw [hcons]

/-- Witness for claim C4 on chain 7: no events at all give false; a
Complete UTXO event followed by a duplicate Complete event gives true. -/
theorem isUTXOScanComplete_spec_witness :
    isUTXOScanComplete (runScanEvents [] emptyScanStates) 7 = false ∧
    isUTXOScanComplete
      (runScanEvents
        ([] ++ ScanUpdate.mk 7 ScanTrack.utxo MerkletreeScanStatus.Complete 1 ::
          [ScanUpdate.mk 7 ScanTrack.utxo MerkletreeScanStatus.Complete 1])
        emptyScanStates) 7 = true :=
  ⟨(isUTXOScanComplete_spec 7).1 [] (by simp),
   (isUTXOScanComplete_spec 7).2.2 []
     [ScanUpdate.mk 7 ScanTrack.utxo MerkletreeScanStatus.Complete 1] 1
     (by intro e he hc ht
         simp only [List.mem_singleton] at he
         rw [he])⟩

/-! Section: Claim C2 — ProviderManager active-network invariant -/

/-- The `ProviderManager` invariant: the active network is null or a
member of the connected set. -/
def pmInvariant (s : PMState) : Prop :=
  getActiveNetwork s = none ∨
    ∃ n, getActiveNetwork s = some n ∧ n ∈ getLoadedNetworks s

/-- Every successful `ProviderManager` operation preserves the
invariant. -/
theorem applyPMOp_preserves_invariant (s s' : PMState) (op : PMOp)
    (hs : pmInvariant s) (h : applyPMOp s op = some s') : pmInvariant s' := by
  cases op with
  | load n r =>
    simp only [applyPMOp, loadNetwork] at h
    by_cases hmem : s.loadedNetworks.contains n
    · rw [if_pos hmem] at h
      rw [← Option.some.inj h]
      exact hs
    · rw [if_neg hmem] at h
      cases hcfg : getFallbackProviderConfig n with
      | none => rw [hcfg] at h; exact absurd h (by simp)
      | some cfg =>
        rw [hcfg] at h
        cases r with
        | none => exact absurd h (by simp)
        | some fees =>
          rw [← Option.some.inj h]
          exact Or.inr ⟨n, rfl, List.mem_append_right _ (List.mem_singleton.mpr rfl)⟩
  | unload n ok =>
    simp only [applyPMOp, unloadNetwork] at h
    by_cases hmem : s.loadedNetworks.contains n
    · rw [hmem] at h
      cases ok with
      | false => exact absurd h (by simp)
      | true =>
        simp only [Bool.not_true, Bool.false_eq_true, if_false] at h
        rw [← Option.some.inj h]
        by_cases hact : s.activeNetwork = some n
        · rw [pmInvariant]
          simp only [getActiveNetwork, getLoadedNetworks, if_pos hact]
          cases hrem : s.loadedNetworks.erase n with
          | nil => exact Or.inl rfl
          | cons x xs =>
            by_cases hx : x = ""
            · exact Or.inl (by simp [jsFirstNetworkOrNull, hx])
            · exact Or.inr ⟨x, by simp [jsFirstNetworkOrNull, hx],
                List.mem_cons_self x xs⟩
        · rw [pmInvariant]
          simp only [getActiveNetwork, getLoadedNetworks, if_neg hact]
          cases hs with
          | inl hnone => exact Or.inl hnone
          | inr hex =>
            obtain ⟨a, ha, hamem⟩ := hex
            have hne : a ≠ n := by
              intro heq
              exact hact (heq ▸ ha)
            exact Or.inr ⟨a, ha, (List.mem_erase_of_ne hne).mpr hamem⟩
    · rw [Bool.not_eq_true] at hmem
      rw [hmem] at h
      simp only [Bool.not_false, if_true] at h
      rw [← Option.some.inj h]
      exact hs
  | switch n r =>
    simp only [applyPMOp, switchNetwork] at h
    by_cases hmem : s.loadedNetworks.contains n
    · rw [if_pos hmem] at h
      rw [← Option.some.inj h]
      exact Or.inr ⟨n, rfl, by simpa using hmem⟩
    · rw [if_neg hmem] at h
      simp only [loadNetwork, if_neg hmem] at h
      cases hcfg : getFallbackProviderConfig n with
      | none => rw [hcfg] at h; exact absurd h (by simp)
      | some cfg =>
        rw [hcfg] at h
        cases r with
        | none => exact absurd h (by simp)
        | some fees =>
          rw [← Option.some.inj h]
          exact Or.inr ⟨n, rfl, List.mem_append_right _ (List.mem_singleton.mpr rfl)⟩


/-- Running a sequence of operations from an invariant state leaves the
invariant intact whenever every operation succeeds. -/
theorem runPM_preserves_invariant (ops : List PMOp) (s s' : PMState)
    (hs : pmInvariant s) (h : runPM s ops = some s') : pmInvariant s' := by
  induction ops generalizing s with
  | nil =>
    simp only [runPM, Option.some.injEq] at h
    rw [← h]
    exact hs
  | cons op ops ih =>
    simp only [runPM] at h
    cases hop : applyPMOp s op with
    | none => rw [hop] at h; exact absurd h (by simp)
    | some s1 =>
      rw [hop] at h
      exact ih s1 (applyPMOp_preserves_invariant s s1 op hs hop) h

/-- Claim C2: for every sequence of successful `ProviderManager`
operations (loadNetwork, unloadNetwork, switchNetwork) starting from the
initial state with no networks connected, the resulting state satisfies:
`getActiveNetwork()` is either null or a member of
`getLoadedNetworks()`. -/
theorem providerManager_active_network_invariant (ops : List PMOp)
    (s : PMState) (h : runPM pmInit ops = some s) :
    getActiveNetwork s = none ∨
      ∃ n, getActiveNetwork s = some n ∧ n ∈ getLoadedNetworks s :=
  runPM_preserves_invariant ops pmInit s (Or.inl rfl) h

/-- Witness for claim C2 on a concrete successful sequence: connect
Ethereum, switch to Polygon (connecting it), disconnect Ethereum. -/
theorem providerManager_active_network_invariant_witness :
    runPM pmInit
        [PMOp.load "Ethereum" (some dummyFeesSerialized),
         PMOp.switch "Polygon" (some dummyFeesSerialized),
         PMOp.unload "Ethereum" true] =
      some (PMState.mk ["Polygon"] (some "Polygon")) ∧
    (getActiveNetwork (PMState.mk ["Polygon"] (some "Polygon")) = none ∨
      ∃ n, getActiveNetwork (PMState.mk ["Polygon"] (some "Polygon")) = some n ∧
        n ∈ getLoadedNetworks (PMState.mk ["Polygon"] (some "Polygon"))) :=
  ⟨by decide,
   providerManager_active_network_invariant
     [PMOp.load "Ethereum" (some dummyFeesSerialized),
      PMOp.switch "Polygon" (some dummyFeesSerialized),
      PMOp.unload "Ethereum" true]
     (PMState.mk ["Polygon"] (some "Polygon")) (by decide)⟩

/-! Section: Claim C7 — wallet catalog presence and active reassignment -/

/-- Adding a wallet: id `i` is found afterwards exactly when it was found
before or the added wallet carries id `i`. -/
theorem getWalletById_addWallet (d : StoredWalletData) (w : WalletInfo)
    (i : String) :
    (getWalletById (addWallet d w) i).isSome =
      ((getWalletById d i).isSome || (w.id == i)) := by
  unfold addWallet getWalletById
  cases hfind : d.wallets.find? (fun x => x.id == w.id) with
  | some x =>
    by_cases hwi : w.id = i
    · have hsome : (d.wallets.find? (fun x => x.id == i)).isSome = true := by
        rw [← hwi]
        rw [hfind]
        rfl
      simp [getWalletById, hsome, hwi]
    · simp [getWalletById, hwi]
  | none =>
    rw [List.find?_append, Option.isSome_or]
    by_cases hwi : w.id = i
    · simp [List.find?, hwi]
    · have hb : (w.id == i) = false := beq_false_of_ne hwi
      simp [List.find?, hb]

/-- Finding id `i` after filtering out id `j`: impossible when `i = j`,
unchanged otherwise. -/
theorem find_isSome_filter_ne (l : List WalletInfo) (i j : String) :
    (List.find? (fun w => w.id == i)
        (l.filter (fun w => !(w.id == j)))).isSome =
      (if j = i then false else (List.find? (fun w => w.id == i) l).isSome) := by
  induction l with
  | nil => cases Decidable.em (j = i) with
    | inl h => simp [h]
    | inr h => simp [h]
  | cons w l ih =>
    by_cases hwj : w.id = j
    · have : (!(w.id == j)) = false := by simp [hwj]
      rw [List.filter_cons, this]
      simp only [Bool.false_eq_true, if_false]
      rw [ih]
      by_cases hji : j = i
      · simp [hji]
      · have hwi : (w.id == i) = false := by
          rw [hwj]
          exact beq_false_of_ne hji
        simp [hji, List.find?, hwi]
    · have : (!(w.id == j)) = true := by simp [hwj]
      rw [List.filter_cons, this]
      simp only [if_true]
      by_cases hwi : w.id = i
      · have hji : ¬(j = i) := fun h => hwj (h ▸ hwi)
        simp [List.find?, hwi, hji]
      · have hwib : (w.id == i) = false := by simp [hwi]
        rw [List.find?_cons_of_neg _ (by simp [hwi]),
          List.find?_cons_of_neg _ (by simp [hwi])]
        exact ih

/-- Removing a wallet: id `i` is found afterwards exactly when it was
found before and is not the removed id. -/
theorem getWalletById_removeWallet (d : StoredWalletData) (j i : String) :
    (getWalletById (removeWallet d j) i).isSome =
      (if j = i then false else (getWalletById d i).isSome) := by
  unfold removeWallet getWalletById
  exact find_isSome_filter_ne d.wallets i j

/-- Presence of an id after a run of catalog operations is the fold of
`presentStep` over the run, starting from the presence before it. -/
theorem applyCatOps_present (ops : List CatOp) (d : StoredWalletData)
    (i : String) :
    (getWalletById (applyCatOps d ops) i).isSome =
      ops.foldl (presentStep i) ((getWalletById d i).isSome) := by
  induction ops generalizing d with
  | nil => rfl
  | cons op ops ih =>
    cases op with
    | add w =>
      show (getWalletById (applyCatOps (addWallet d w) ops) i).isSome = _
      rw [ih (addWallet d w), getWalletById_addWallet]
      rfl
    | remove j =>
      show (getWalletById (applyCatOps (removeWallet d j) ops) i).isSome = _
      rw [ih (removeWallet d j), getWalletById_removeWallet]
      have : (if j = i then false else (getWalletById d i).isSome) =
          presentStep i (getWalletById d i).isSome (CatOp.remove j) := by
        unfold presentStep
        by_cases hji : j = i
        · simp [hji]
        · simp [hji]
      rw [this]
      rfl

/-- Test wallet with a normal id, used for claim C7. -/
def walletA : WalletInfo :=
  { id := "a", railgunAddress := "0zk-address-a"
    createdAt := "2024-01-01T00:00:00Z", networks := [] }

/-- Test wallet whose id is the empty string, used for claim C7. -/
def walletBlank : WalletInfo :=
  { id := "", railgunAddress := "0zk-address-blank"
    createdAt := "2024-01-01T00:00:00Z", networks := [] }

/-- Counterexample to claim C7 as stated: starting from the empty catalog,
add a wallet with id "a" (it becomes active) and a wallet whose id is the
empty string, then remove the active wallet "a".  A wallet remains in the
catalog, yet `activeWalletId` is reassigned to null — not to any
remaining wallet — because `data.wallets[0]?.id || null` treats the
remaining empty-string id as falsy. -/
theorem removeActiveWallet_counterexample :
    (runCatalog [CatOp.add walletA, CatOp.add walletBlank]).activeWalletId =
      some "a" ∧
    (removeWallet (runCatalog [CatOp.add walletA, CatOp.add walletBlank])
        "a").wallets = [walletBlank] ∧
    (removeWallet (runCatalog [CatOp.add walletA, CatOp.add walletBlank])
        "a").activeWalletId = none := by
  refine ⟨rfl, rfl, rfl⟩

/-- Amended claim C7: for every sequence of `addWallet`/`removeWallet`
operations, `getWalletById` finds exactly the ids added and not since
removed; and removing the wallet that is currently active reassigns
`activeWalletId` to exactly `data.wallets[0]?.id || null` over the
remaining records: to the id of the first remaining wallet, or to null
when no wallets remain — or when the first remaining wallet's id is the
empty string, which the JS `||` treats as falsy. -/
theorem walletCatalog_presence_and_reassignment :
    (∀ (ops : List CatOp) (i : String),
        (getWalletById (runCatalog ops) i).isSome = presentIds ops i) ∧
    (∀ (d : StoredWalletData) (i : String), d.activeWalletId = some i →
        ((removeWallet d i).wallets = [] →
          (removeWallet d i).activeWalletId = none) ∧
        (∀ (w : WalletInfo) (rest : List WalletInfo),
          (removeWallet d i).wallets = w :: rest →
          (removeWallet d i).activeWalletId =
            (if w.id = "" then none else some w.id))) := by
  constructor
  · intro ops i
    exact applyCatOps_present ops emptyWalletData i
  · intro d i hact
    unfold removeWallet
    simp only [hact, if_pos]
    constructor
    · intro hrem
      rw [hrem]
      rfl
    · intro w rest hrem
      rw [hrem]
      rfl

/-- Witness for claim C7: presence equation evaluated on the concrete run
"add wallet a, remove wallet a", and active-id reassignment evaluated on
the concrete catalog holding the active wallet "a" followed by the
blank-id wallet: removing "a" leaves `[walletBlank]` and the new active
id is `if walletBlank.id = "" then none else some walletBlank.id`. -/
theorem walletCatalog_presence_and_reassignment_witness :
    ((getWalletById (runCatalog [CatOp.add walletA, CatOp.remove "a"])
        "a").isSome =
      presentIds [CatOp.add walletA, CatOp.remove "a"] "a") ∧
    (removeWallet (StoredWalletData.mk [walletA, walletBlank] (some "a"))
        "a").activeWalletId =
      (if walletBlank.id = "" then none else some walletBlank.id) :=
  ⟨walletCatalog_presence_and_reassignment.1
      [CatOp.add walletA, CatOp.remove "a"] "a",
   (walletCatalog_presence_and_reassignment.2
      (StoredWalletData.mk [walletA, walletBlank] (some "a")) "a" rfl).2
     walletBlank [] rfl⟩

/-! Section: Claim C8 — command resolution order -/

/-- Claim C8: command resolution first matches the parsed command token —
the first two whitespace-separated tokens joined when the input has at
least two tokens — exactly against every command's name and aliases, and
only on failure falls back to the first token alone; in particular
"wallet create" resolves to the two-word command, "balance refresh"
resolves to the two-word command although its first token alone names the
"balance" command, "st" resolves via alias to "status", and "bogus"
resolves to no command (the resolver is total, so it cannot throw). -/
theorem commandResolution_two_word_first :
    (∀ (input : String) (cmd : ReplCommand),
        (parseInput input).command ≠ "" →
        replCommands.find? (matchesToken (parseInput input).command) = some cmd →
        findCommand input replCommands = some (cmd, (parseInput input).args)) ∧
    (findCommand "wallet create" replCommands).map (fun r => r.1.name) =
      some "wallet create" ∧
    (findCommand "balance refresh" replCommands).map (fun r => r.1.name) =
      some "balance refresh" ∧
    (findCommand "st" replCommands).map (fun r => r.1.name) = some "status" ∧
    findCommand "bogus" replCommands = none := by
  refine ⟨?_, by decide, by decide, by decide, by decide⟩
  intro input cmd hne hfind
  simp only [findCommand]
  rw [if_neg hne, hfind]

/-- Witness for claim C8: the compound input "wallet export abc" matches
the two-word command "wallet export" with argument list ["abc"]. -/
theorem commandResolution_two_word_first_witness :
    (parseInput "wallet export abc").command ≠ "" ∧
    replCommands.find?
        (matchesToken (parseInput "wallet export abc").command) =
      some (ReplCommand.mk "wallet export" ["we"]) ∧
    findCommand "wallet export abc" replCommands =
      some (ReplCommand.mk "wallet export" ["we"],
        (parseInput "wallet export abc").args) :=
  ⟨by decide, by decide,
   commandResolution_two_word_first.1 "wallet export abc"
     (ReplCommand.mk "wallet export" ["we"]) (by decide) (by decide)⟩
